import Mathlib

/-
Verification of the Figure Region Resolution Engine of `app.py`
(PDF figure extraction tool: caption detection, column classification,
smart clip-rectangle computation, and the per-page extraction loop).

Modelling conventions:
- Page coordinates are modelled as exact rationals (`ℚ`).  The Python code
  computes with binary floats; every constant appearing in the code
  (0.45, 0.55, 50, 15, 30, 5, 1/3, 1/2) is taken at its exact rational value.
- `fitz.Rect` is modelled as a record of four rationals.  Its `width` and
  `height` are modelled mathematically as `x1 - x0` and `y1 - y0`
  (PyMuPDF clamps these properties at 0; on every branch of this program
  the two readings lead to the same control flow, since the only uses are
  comparisons against positive bounds, and a clamped 0 is below those
  bounds exactly when the signed difference is).
- `page.get_drawings()` and `page.get_images()` / `get_image_bbox` are
  external collaborators; a page carries the lists of bounding rectangles
  they deliver.  The `try/except` around `get_image_bbox` skips failing
  images, so the image list holds exactly the successfully resolved boxes.
- Python's `re` matching is translated structurally: an optional regex
  group becomes a Boolean disjunction (presence of the group or not),
  `\s*\d+` becomes "drop whitespace, then the head is a digit";
  `re.IGNORECASE` becomes comparison after ASCII case folding.
  `\s` and `\d` are modelled on the character ranges relevant to this
  program (ASCII whitespace and ASCII digits).
-/

attribute [local semireducible] Rat.mul Rat.add Rat.sub Rat.inv

/-- Axis-aligned rectangle, the model of `fitz.Rect`. -/
structure Rect where
  x0 : ℚ
  y0 : ℚ
  x1 : ℚ
  y1 : ℚ
deriving DecidableEq, Repr

/-- Signed width `x1 - x0` of a rectangle. -/
def Rect.width (r : Rect) : ℚ := r.x1 - r.x0

/-- Signed height `y1 - y0` of a rectangle. -/
def Rect.height (r : Rect) : ℚ := r.y1 - r.y0

/-- Computable maximum on the rationals (Python's `max`). -/
def qmax (a b : ℚ) : ℚ := if a ≤ b then b else a

/-- Computable minimum on the rationals (Python's `min`). -/
def qmin (a b : ℚ) : ℚ := if b ≤ a then b else a

/-- Rectangle union, the model of the `|` / `|=` operator of `fitz.Rect`. -/
def Rect.union (a b : Rect) : Rect :=
  ⟨qmin a.x0 b.x0, qmin a.y0 b.y0, qmax a.x1 b.x1, qmax a.y1 b.y1⟩

/-- Rectangle intersection (used only by spec-side definitions). -/
def Rect.inter (a b : Rect) : Rect :=
  ⟨qmax a.x0 b.x0, qmax a.y0 b.y0, qmin a.x1 b.x1, qmin a.y1 b.y1⟩

/-- A text block as returned by `page.get_text("blocks")`:
bounding rectangle `block[:4]` and text `block[4]`. -/
structure Block where
  rect : Rect
  text : String
deriving DecidableEq, Repr

/-- A page: width and height of `page.rect`, the text blocks, the drawing
bounding boxes from `get_drawings()`, and the image bounding boxes that
`get_image_bbox` resolves without raising. -/
structure Page where
  width : ℚ
  height : ℚ
  blocks : List Block
  drawings : List Rect
  images : List Rect
deriving DecidableEq, Repr

/- ### Caption detector: `is_caption` (app.py lines 25-35)

`re.match(r'^(图|Fig(ure)?\.?)\s*\d+', text.strip(), re.IGNORECASE)` -/

/-- ASCII case folding on code points: the effect of `re.IGNORECASE` on the
letters appearing in the pattern. -/
def foldCase (n : Nat) : Nat := if 65 ≤ n ∧ n ≤ 90 then n + 32 else n

/-- Case-insensitive character comparison (`re.IGNORECASE`). -/
def ciEq (c t : Char) : Bool := foldCase c.toNat = foldCase t.toNat

/-- Whitespace as stripped by `str.strip()` and matched by `\s`
(ASCII range: space, tab, LF, CR, VT, FF). -/
def isSpaceChar (c : Char) : Bool :=
  c = ' ' || c = '\t' || c = '\n' || c = '\r' || c = Char.ofNat 11 || c = Char.ofNat 12

/-- Decimal digit as matched by `\d` (ASCII range). -/
def isDigitChar (c : Char) : Bool := '0' ≤ c && c ≤ '9'

/-- `str.strip()`: drop whitespace at both ends. -/
def pyStrip (l : List Char) : List Char :=
  ((l.dropWhile isSpaceChar).reverse.dropWhile isSpaceChar).reverse

/-- Match `\s*\d+` as a prefix: skip whitespace, then require a digit head. -/
def wsDigit (l : List Char) : Bool :=
  match l.dropWhile isSpaceChar with
  | [] => false
  | c :: _ => isDigitChar c

/-- Match `\.?\s*\d+` as a prefix (the optional dot of the pattern). -/
def dotTail (l : List Char) : Bool :=
  wsDigit l ||
  (match l with
   | c :: r => ciEq c '.' && wsDigit r
   | [] => false)

/-- Match `(ure)?\.?\s*\d+` as a prefix (the optional `ure` group). -/
def ureTail (l : List Char) : Bool :=
  dotTail l ||
  (match l with
   | u :: r :: e :: rest => ciEq u 'u' && ciEq r 'r' && ciEq e 'e' && dotTail rest
   | _ => false)

/-- Match the full pattern `^(图|Fig(ure)?\.?)\s*\d+` on a character list. -/
def capMatch : List Char → Bool
  | [] => false
  | c :: rest =>
    (ciEq c '图' && wsDigit rest) ||
    (match rest with
     | i :: g :: rest2 => ciEq c 'f' && ciEq i 'i' && ciEq g 'g' && ureTail rest2
     | _ => false)

/-- `is_caption` of app.py: strip the text, then match the caption pattern. -/
def is_caption (s : String) : Bool := capMatch (pyStrip s.data)

/- ### Spec-side caption predicates (from the spec's words, for comparison) -/

/-- Consume a token case-insensitively; return the rest of the input on
success (spec-side helper). -/
def dropTokCI : List Char → List Char → Option (List Char)
  | [], l => some l
  | _ :: _, [] => none
  | t :: ts, c :: cs => if ciEq c t then dropTokCI ts cs else none

/-- Spec-side: the input starts with the given marker token
(case-insensitively), followed by optional whitespace and a digit. -/
def tokThenDigits (tok : List Char) (l : List Char) : Bool :=
  match dropTokCI tok l with
  | some r => wsDigit r
  | none => false

/-- Marker tokens claimed by the spec: Fig / Fig. / Figure. -/
def claimMarkers : List (List Char) :=
  [['f', 'i', 'g'], ['f', 'i', 'g', '.'], ['f', 'i', 'g', 'u', 'r', 'e']]

/-- Caption predicate exactly as the spec claims it: after trimming, the
token 图 or a case-insensitive Fig / Fig. / Figure, then optional
whitespace and at least one digit. -/
def specIsCaption (s : String) : Bool :=
  tokThenDigits ['图'] (pyStrip s.data) ||
  claimMarkers.any (fun t => tokThenDigits t (pyStrip s.data))

/-- Marker tokens of the amended claim: also Figure. (the regex allows the
optional dot after Figure as well). -/
def amendedMarkers : List (List Char) :=
  [['f', 'i', 'g'], ['f', 'i', 'g', '.'],
   ['f', 'i', 'g', 'u', 'r', 'e'], ['f', 'i', 'g', 'u', 'r', 'e', '.']]

/-- Caption predicate of the amended claim. -/
def specIsCaptionAmended (s : String) : Bool :=
  tokThenDigits ['图'] (pyStrip s.data) ||
  amendedMarkers.any (fun t => tokThenDigits t (pyStrip s.data))

/- ### `get_smart_clip_rect` (app.py lines 37-135) -/

/-- Column layout classification (`layout_type` in the code). -/
inductive LayoutKind where
  | leftColumn
  | rightColumn
  | fullWidth
deriving DecidableEq, Repr

/-- `min_y_limit = 50`: the page-header band limit. -/
def min_y_limit : ℚ := 50

/-- Column classification: `x1 < page_width * 0.45` is a left-column
caption, `x0 > page_width * 0.55` a right-column one, anything else
full width. -/
def layout_type (captionRect : Rect) (pageWidth : ℚ) : LayoutKind :=
  if captionRect.x1 < pageWidth * (45 / 100) then .leftColumn
  else if captionRect.x0 > pageWidth * (55 / 100) then .rightColumn
  else .fullWidth

/-- The horizontal search band `(search_x0, search_x1)` for each layout. -/
def searchBand (captionRect : Rect) (pageWidth : ℚ) : ℚ × ℚ :=
  match layout_type captionRect pageWidth with
  | .leftColumn => (0, pageWidth / 2)
  | .rightColumn => (pageWidth / 2, pageWidth)
  | .fullWidth => (0, pageWidth)

/-- The candidate test applied to each drawing and image rectangle:
bottom edge at most 15 below the caption top, top edge strictly below the
header limit, and horizontal span not entirely outside the band. -/
def keepCandidate (y0 sx0 sx1 : ℚ) (r : Rect) : Bool :=
  r.y1 ≤ y0 + 15 && r.y0 > min_y_limit && !(r.x1 < sx0 || r.x0 > sx1)

/-- The `candidates` list collected by the two loops over drawings and
images (drawings first, in order, then images). -/
def candidates (page : Page) (captionRect : Rect) : List Rect :=
  (page.drawings ++ page.images).filter
    (keepCandidate captionRect.y0 (searchBand captionRect page.width).1
      (searchBand captionRect page.width).2)

/-- The geometric fallback used when no candidate survives: one third of
the page height above the caption (bounded by the header limit), the band
shrunk by a 30-unit margin on each side. -/
def fallbackRect (page : Page) (captionRect : Rect) : Rect :=
  ⟨(searchBand captionRect page.width).1 + 30,
   qmax min_y_limit (captionRect.y0 - page.height / 3),
   (searchBand captionRect page.width).2 - 30,
   captionRect.y0⟩

/-- `final_rect = candidates[0]` followed by `final_rect |= r` over the
whole candidate list. -/
def unionAll (c : Rect) (cs : List Rect) : Rect :=
  (c :: cs).foldl Rect.union c

/-- Bottom adjustment: `final_rect.y1 = y0` (snap to the caption top). -/
def snapBottom (capY0 : ℚ) (u : Rect) : Rect := ⟨u.x0, u.y0, u.x1, capY0⟩

/-- Padding adjustment: 5 units of padding, clamped to the page on the
left/right and to the header limit at the top. -/
def padRect (pageWidth : ℚ) (r : Rect) : Rect :=
  ⟨qmax 0 (r.x0 - 5), qmax min_y_limit (r.y0 - 5), qmin pageWidth (r.x1 + 5), r.y1⟩

/-- Width correction: if the detected region is narrower than the caption,
stretch it (symmetrically about its centre) to the caption's width. -/
def widenToCaption (capWidth : ℚ) (r : Rect) : Rect :=
  if r.width < capWidth then
    ⟨qmin r.x0 ((r.x0 + r.x1) / 2 - capWidth / 2), r.y0,
     qmax r.x1 ((r.x0 + r.x1) / 2 + capWidth / 2), r.y1⟩
  else r

/-- The rectangle of the object path just before the width correction. -/
def preWidenRect (page : Page) (captionRect : Rect) (c : Rect) (cs : List Rect) : Rect :=
  padRect page.width (snapBottom captionRect.y0 (unionAll c cs))

/-- `get_smart_clip_rect(page, caption_rect, page_width, page_height)`:
the caller always passes `page.rect.width` and `page.rect.height`, so the
page record carries both. -/
def get_smart_clip_rect (page : Page) (captionRect : Rect) : Rect :=
  match candidates page captionRect with
  | [] => fallbackRect page captionRect
  | c :: cs => widenToCaption captionRect.width (preWidenRect page captionRect c cs)

/- ### The per-page extraction loop (app.py lines 176-217) -/

/-- The sort key of `blocks.sort(key=lambda b: (b[1], b[0]))`:
ascending `y0`, ties by `x0`. -/
def blockLE (a b : Block) : Bool :=
  a.rect.y0 < b.rect.y0 || (a.rect.y0 = b.rect.y0 && a.rect.x0 ≤ b.rect.x0)

/-- Stable insertion into a sorted block list. -/
def insertSorted (a : Block) : List Block → List Block
  | [] => [a]
  | b :: l => if blockLE a b then a :: b :: l else b :: insertSorted a l

/-- Stable sort by `(y0, x0)`, the model of Python's stable `list.sort`. -/
def sortBlocks : List Block → List Block
  | [] => []
  | a :: l => insertSorted a (sortBlocks l)

/-- The clip rectangles of the figures extracted from one page: scan the
sorted blocks, keep caption blocks, compute the smart clip rectangle, and
skip rectangles with width or height below 50. -/
def extractPageRects (page : Page) : List Rect :=
  ((sortBlocks page.blocks).filter (fun b => is_caption b.text)).filterMap
    (fun b =>
      if (get_smart_clip_rect page b.rect).width < 50 ∨
          (get_smart_clip_rect page b.rect).height < 50 then none
      else some (get_smart_clip_rect page b.rect))

/- ### Spec-side geometry definitions (from the spec's words) -/

/-- Spec-side Ceiling Search qualification: a block other than the anchor,
bottom edge strictly above the anchor top, horizontal overlap with the
band non-empty. -/
def qualifiesCeiling (anchor : Block) (band : ℚ × ℚ) (b : Block) : Bool :=
  b ≠ anchor && b.rect.y1 < anchor.rect.y0 &&
    qmax b.rect.x0 band.1 < qmin b.rect.x1 band.2

/-- Spec-side Ceiling Search: the greatest bottom edge among qualifying
blocks, defaulting to the header-margin constant. -/
def specCeiling (blocks : List Block) (anchor : Block) (band : ℚ × ℚ) : ℚ :=
  match (blocks.filter (qualifiesCeiling anchor band)).map (fun b => b.rect.y1) with
  | [] => min_y_limit
  | y :: ys => ys.foldl qmax y

/-- Spec-side column classification with midline `W/2` and margin `m`:
the claimed form of the Column Classifier. -/
def specBand (m : ℚ) (captionRect : Rect) (pageWidth : ℚ) : ℚ × ℚ :=
  if captionRect.x1 < pageWidth / 2 + m then (0, pageWidth / 2)
  else if captionRect.x0 > pageWidth / 2 - m then (pageWidth / 2, pageWidth)
  else (0, pageWidth)

/-- Amended column classification: the margin is one twentieth of the page
width, subtracted from the midline for the left test and added for the
right test. -/
def specBandAmended (captionRect : Rect) (pageWidth : ℚ) : ℚ × ℚ :=
  if captionRect.x1 < pageWidth / 2 - pageWidth / 20 then (0, pageWidth / 2)
  else if captionRect.x0 > pageWidth / 2 + pageWidth / 20 then (pageWidth / 2, pageWidth)
  else (0, pageWidth)

/-- Spec-side region of interest of the Object-Union Resolver: the band
horizontally, the spec ceiling to the anchor top vertically. -/
def specROI (page : Page) (anchor : Block) : Rect :=
  ⟨(searchBand anchor.rect page.width).1,
   specCeiling page.blocks anchor (searchBand anchor.rect page.width),
   (searchBand anchor.rect page.width).2,
   anchor.rect.y0⟩

/-- Spec-side candidate filter of the Object-Union Resolver: positive-area
intersection with the region of interest, and not a full-page background
(more than 90 percent of both page dimensions). -/
def specSurvives (pageWidth pageHeight : ℚ) (roi : Rect) (r : Rect) : Bool :=
  ((Rect.inter r roi).x0 < (Rect.inter r roi).x1 &&
   (Rect.inter r roi).y0 < (Rect.inter r roi).y1) &&
  !(r.width > pageWidth * (9 / 10) && r.height > pageHeight * (9 / 10))

/-- Spec-side fallback region: the full band between the ceiling and the
caption top. -/
def specFallbackRect (page : Page) (anchor : Block) : Rect :=
  ⟨(searchBand anchor.rect page.width).1,
   specCeiling page.blocks anchor (searchBand anchor.rect page.width),
   (searchBand anchor.rect page.width).2,
   anchor.rect.y0⟩

/- ### Concrete sample inputs -/

/-- A two-column-free page with one body-text block above a caption block
and no visual objects: the fallback path fires. -/
def pageA : Page :=
  { width := 600, height := 900,
    blocks := [⟨⟨40, 380, 300, 400⟩, "body text"⟩, ⟨⟨40, 500, 300, 515⟩, "图1 系统架构"⟩],
    drawings := [], images := [] }

/-- The caption anchor block of `pageA`. -/
def anchorA : Block := ⟨⟨40, 500, 300, 515⟩, "图1 系统架构"⟩

/-- A page whose only drawing is a near-full-page background rectangle. -/
def pageB : Page :=
  { width := 600, height := 800,
    blocks := [⟨⟨150, 780, 450, 790⟩, "图2 大图"⟩],
    drawings := [⟨0, 60, 600, 790⟩], images := [] }

/-- The caption anchor block of `pageB`. -/
def anchorB : Block := ⟨⟨150, 780, 450, 790⟩, "图2 大图"⟩

/-- The full-page background drawing of `pageB`. -/
def bigRectB : Rect := ⟨0, 60, 600, 790⟩

/-- A left-column caption rectangle on `pageC`. -/
def capC : Rect := ⟨10, 200, 40, 210⟩

/-- A narrow page (width 100) holding one caption block: the left-column
fallback band is narrower than the two 30-unit margins, so the fallback
rectangle has negative width. -/
def pageC : Page :=
  { width := 100, height := 900, blocks := [⟨capC, "图3 测试"⟩],
    drawings := [], images := [] }

/-- A page where the object path fires and the width correction widens the
detected region to the caption width; one figure is extracted. -/
def pageD : Page :=
  { width := 600, height := 900,
    blocks := [⟨⟨40, 500, 300, 515⟩, "图1 系统"⟩],
    drawings := [⟨60, 300, 250, 450⟩], images := [] }

/-- The caption rectangle of `pageD`. -/
def capD : Rect := ⟨40, 500, 300, 515⟩

/- ### Helper lemmas -/

theorem Rect.width_mk (a b c d : ℚ) : Rect.width ⟨a, b, c, d⟩ = c - a := rfl

theorem qmax_le_left (a b : ℚ) : a ≤ qmax a b := by
  unfold qmax
  split
  · assumption
  · exact le_refl a

theorem qmax_eq_right {a b : ℚ} (h : a ≤ b) : qmax a b = b := by
  unfold qmax
  exact if_pos h

theorem qmin_eq_right {a b : ℚ} (h : b ≤ a) : qmin a b = b := by
  unfold qmin
  exact if_pos h

theorem widenToCaption_y0 (w : ℚ) (r : Rect) : (widenToCaption w r).y0 = r.y0 := by
  unfold widenToCaption; split <;> rfl

theorem widenToCaption_y1 (w : ℚ) (r : Rect) : (widenToCaption w r).y1 = r.y1 := by
  unfold widenToCaption; split <;> rfl

theorem insertSorted_perm (a : Block) (l : List Block) :
    List.Perm (insertSorted a l) (a :: l) := by
  induction l with
  | nil => exact List.Perm.refl _
  | cons b l ih =>
    unfold insertSorted
    split
    · exact List.Perm.refl _
    · exact (List.Perm.cons b ih).trans (List.Perm.swap a b l)

theorem sortBlocks_perm (l : List Block) : List.Perm (sortBlocks l) l := by
  induction l with
  | nil => exact List.Perm.refl _
  | cons a l ih => exact (insertSorted_perm a (sortBlocks l)).trans (List.Perm.cons a ih)

/- ### Claim theorems -/

/-- C6: on both the object-union path and the geometric fallback path, the
resolved region's bottom edge `y1` is at most the caption's top edge `y0`
(the code in fact sets it equal to the caption top). -/
theorem region_bottom_at_caption_top (page : Page) (cap : Rect) :
    (get_smart_clip_rect page cap).y1 ≤ cap.y0 := by
  unfold get_smart_clip_rect
  cases h : candidates page cap with
  | nil => exact le_refl _
  | cons c cs => rw [widenToCaption_y1]; exact le_refl _

/-- C10: on both paths, the resolved region's top edge `y0` is at least the
fixed header limit `min_y_limit = 50`. -/
theorem clip_top_at_least_header (page : Page) (cap : Rect) :
    min_y_limit ≤ (get_smart_clip_rect page cap).y0 := by
  unfold get_smart_clip_rect
  cases h : candidates page cap with
  | nil => exact qmax_le_left _ _
  | cons c cs => rw [widenToCaption_y0]; exact qmax_le_left _ _

/-- C1 counterexample: the claim that the region's upper bound is the
Ceiling-Search value over text blocks (with y at most the anchor top) is
false: on `pageA` the qualifying block ends at 400, but the code bounds the
region at `max(50, 500 - 900/3) = 200`, consulting no text block. -/
theorem ceiling_search_claim_refuted :
    ¬ (∀ (page : Page) (anchor : Block),
        (get_smart_clip_rect page anchor.rect).y0
            = specCeiling page.blocks anchor (searchBand anchor.rect page.width) ∧
          (get_smart_clip_rect page anchor.rect).y0 ≤ anchor.rect.y0) := by
  intro h
  exact absurd (h pageA anchorA).1 (by decide)

/-- C1 amended: text blocks play no role; the region's top edge equals
`max(50, caption_top - page_height/3)` on the fallback path and
`max(50, union_top - 5)` on the object path. -/
theorem clip_rect_top_edge (page : Page) (cap : Rect) :
    (candidates page cap = [] →
      (get_smart_clip_rect page cap).y0 = qmax min_y_limit (cap.y0 - page.height / 3)) ∧
    (∀ c cs, candidates page cap = c :: cs →
      (get_smart_clip_rect page cap).y0 = qmax min_y_limit ((unionAll c cs).y0 - 5)) := by
  constructor
  · intro h
    unfold get_smart_clip_rect
    rw [h]
    rfl
  · intro c cs h
    unfold get_smart_clip_rect
    rw [h, widenToCaption_y0]
    rfl

/-- C1 amended, witness at `pageA` (fallback path). -/
theorem clip_rect_top_edge_witness :
    (get_smart_clip_rect pageA anchorA.rect).y0
      = qmax min_y_limit (anchorA.rect.y0 - pageA.height / 3) :=
  (clip_rect_top_edge pageA anchorA.rect).1 (by decide)

/-- C3 counterexample: the claimed fallback region spans the full band
`[band.x0, band.x1]`; the code shrinks the band by a 30-unit margin on each
side (and uses no text-block ceiling), so on `pageA` the code returns
`(30, 200, 570, 500)` and not the claimed `(0, 400, 600, 500)`. -/
theorem fallback_full_band_claim_refuted :
    ¬ (∀ (page : Page) (anchor : Block),
        candidates page anchor.rect = [] →
          get_smart_clip_rect page anchor.rect = specFallbackRect page anchor) := by
  intro h
  exact absurd (h pageA anchorA (by decide)) (by decide)

/-- C3 amended: when no candidate survives, the resolved region is the
band shrunk by 30 units on each side, from `max(50, caption_top -
page_height/3)` down to the caption top. -/
theorem fallback_rect_eq (page : Page) (cap : Rect) (h : candidates page cap = []) :
    get_smart_clip_rect page cap =
      ⟨(searchBand cap page.width).1 + 30,
       qmax min_y_limit (cap.y0 - page.height / 3),
       (searchBand cap page.width).2 - 30,
       cap.y0⟩ := by
  unfold get_smart_clip_rect
  rw [h]
  rfl

/-- C3 amended, witness at `pageA`. -/
theorem fallback_rect_eq_witness :
    candidates pageA anchorA.rect = [] ∧
      get_smart_clip_rect pageA anchorA.rect = ⟨30, 200, 570, 500⟩ :=
  ⟨by decide, by rw [fallback_rect_eq pageA anchorA.rect (by decide)]; decide⟩

/-- C5: whenever at least one candidate survives, the final rectangle is at
least as wide as the caption; when the pre-correction rectangle is narrower
than the caption, it is widened symmetrically about its centre (the centre,
i.e. the sum `x0 + x1`, is preserved) to exactly the caption width. -/
theorem object_path_width_bound (page : Page) (cap : Rect) (c : Rect) (cs : List Rect)
    (h : candidates page cap = c :: cs) :
    cap.width ≤ (get_smart_clip_rect page cap).width ∧
    ((preWidenRect page cap c cs).width < cap.width →
      (get_smart_clip_rect page cap).x0 + (get_smart_clip_rect page cap).x1
          = (preWidenRect page cap c cs).x0 + (preWidenRect page cap c cs).x1 ∧
        (get_smart_clip_rect page cap).width = cap.width) := by
  have hg : get_smart_clip_rect page cap
      = widenToCaption cap.width (preWidenRect page cap c cs) := by
    unfold get_smart_clip_rect
    rw [h]
  rw [hg]
  set r := preWidenRect page cap c cs with hr
  simp only [widenToCaption]
  split_ifs with hw
  · have hw2 : r.x1 - r.x0 < cap.x1 - cap.x0 := hw
    have hx0 : (r.x0 + r.x1) / 2 - (cap.x1 - cap.x0) / 2 ≤ r.x0 := by linarith
    have hx1 : r.x1 ≤ (r.x0 + r.x1) / 2 + (cap.x1 - cap.x0) / 2 := by linarith
    refine ⟨?_, fun _ => ⟨?_, ?_⟩⟩
    · dsimp only [Rect.width]
      rw [qmin_eq_right hx0, qmax_eq_right hx1]
      linarith
    · dsimp only [Rect.width]
      rw [qmin_eq_right hx0, qmax_eq_right hx1]
      ring
    · dsimp only [Rect.width]
      rw [qmin_eq_right hx0, qmax_eq_right hx1]
      ring
  · exact ⟨le_of_not_lt hw, fun hc => absurd hc hw⟩

/-- C5 witness at `pageD` (one candidate, widening fires). -/
theorem object_path_width_bound_witness :
    Rect.width capD ≤ (get_smart_clip_rect pageD capD).width :=
  (object_path_width_bound pageD capD ⟨60, 300, 250, 450⟩ [] (by decide)).1

/-- C9: a rectangle classified as right column keeps a non-left
classification under any strictly rightward translation. -/
theorem right_column_monotone (r : Rect) (W d : ℚ) (hd : 0 < d)
    (h : layout_type r W = LayoutKind.rightColumn) :
    layout_type ⟨r.x0 + d, r.y0, r.x1 + d, r.y1⟩ W ≠ LayoutKind.leftColumn := by
  unfold layout_type at h ⊢
  by_cases h1 : r.x1 < W * (45 / 100)
  · rw [if_pos h1] at h
    exact LayoutKind.noConfusion h
  · rw [if_neg h1] at h
    by_cases h2 : r.x0 > W * (55 / 100)
    · have hA : ¬ (Rect.x1 ⟨r.x0 + d, r.y0, r.x1 + d, r.y1⟩ < W * (45 / 100)) := by
        dsimp only
        push_neg at h1 ⊢
        linarith
      have hB : Rect.x0 ⟨r.x0 + d, r.y0, r.x1 + d, r.y1⟩ > W * (55 / 100) := by
        dsimp only
        linarith
      rw [if_neg hA, if_pos hB]
      exact fun hc => LayoutKind.noConfusion hc
    · rw [if_neg h2] at h
      exact LayoutKind.noConfusion h

/-- C9 witness: the right-column rectangle (60, 0, 90, 10) on a page of
width 100, translated right by 5. -/
theorem right_column_monotone_witness :
    (0 : ℚ) < 5 ∧ layout_type ⟨60, 0, 90, 10⟩ 100 = LayoutKind.rightColumn ∧
      layout_type ⟨65, 0, 95, 10⟩ 100 ≠ LayoutKind.leftColumn := by
  refine ⟨by norm_num, by decide, ?_⟩
  have h := right_column_monotone ⟨60, 0, 90, 10⟩ 100 5 (by norm_num) (by decide)
  have he : (⟨(⟨60, 0, 90, 10⟩ : Rect).x0 + 5, (⟨60, 0, 90, 10⟩ : Rect).y0,
      (⟨60, 0, 90, 10⟩ : Rect).x1 + 5, (⟨60, 0, 90, 10⟩ : Rect).y1⟩ : Rect)
      = ⟨65, 0, 95, 10⟩ := by decide
  rw [he] at h
  exact h

/-- C2 counterexample: no nonnegative margin makes the claimed
midline-plus-margin rule agree with the code: the rectangle (2, 0, 47, 10)
on a page of width 100 has its right edge left of the midline (so the
claimed rule calls it left-column for every margin), but the code
classifies it full width because 47 is not below 45. -/
theorem column_margin_claim_refuted :
    ¬ (∃ m : ℚ, 0 ≤ m ∧ ∀ (r : Rect) (W : ℚ), specBand m r W = searchBand r W) := by
  rintro ⟨m, hm, h⟩
  have h1 := h ⟨2, 0, 47, 10⟩ 100
  have hcode : searchBand ⟨2, 0, 47, 10⟩ 100 = (0, 100) := by decide
  rw [hcode] at h1
  have hc : Rect.x1 ⟨2, 0, 47, 10⟩ < (100 : ℚ) / 2 + m := by
    dsimp only
    linarith
  unfold specBand at h1
  rw [if_pos hc] at h1
  have h2 := congrArg Prod.snd h1
  norm_num at h2

/-- C2 amended: the classifier compares the caption's right edge with
`0.45 * width` and its left edge with `0.55 * width`; equivalently the
margin is `width / 20`, subtracted from the midline for the left-column
test and added to it for the right-column test. -/
theorem column_classifier_boundaries (r : Rect) (W : ℚ) :
    searchBand r W = specBandAmended r W := by
  have e1 : W / 2 - W / 20 = W * (45 / 100) := by ring
  have e2 : W / 2 + W / 20 = W * (55 / 100) := by ring
  unfold searchBand layout_type specBandAmended
  rw [e1, e2]
  by_cases h1 : r.x1 < W * (45 / 100)
  · simp only [if_pos h1]
  · by_cases h2 : r.x0 > W * (55 / 100)
    · simp only [if_neg h1, if_pos h2]
    · simp only [if_neg h1, if_neg h2]

/-- C4 counterexample: the code's candidate filter computes no
intersection area and applies no full-page-background test: on `pageB` the
drawing covering the whole page width and 91 percent of the page height is
kept as a candidate although the claimed filter discards it. -/
theorem object_filter_claim_refuted :
    ¬ (∀ (page : Page) (anchor : Block) (r : Rect),
        r ∈ candidates page anchor.rect ↔
          (r ∈ page.drawings ++ page.images ∧
            specSurvives page.width page.height (specROI page anchor) r = true)) := by
  intro h
  have hmem : bigRectB ∈ candidates pageB anchorB.rect := by decide
  have hs := ((h pageB anchorB bigRectB).1 hmem).2
  exact absurd hs (by decide)

/-- C4 amended: a visual object's rectangle is kept iff it comes from the
drawing or image lists, its bottom edge is at most 15 units below the
caption top, its own top edge lies strictly below the 50-unit header
limit, and its horizontal span is not entirely outside the column band. -/
theorem candidate_mem_iff (page : Page) (cap : Rect) (r : Rect) :
    r ∈ candidates page cap ↔
      (r ∈ page.drawings ++ page.images ∧ r.y1 ≤ cap.y0 + 15 ∧ min_y_limit < r.y0 ∧
        ¬(r.x1 < (searchBand cap page.width).1 ∨ r.x0 > (searchBand cap page.width).2)) := by
  unfold candidates keepCandidate
  rw [List.mem_filter]
  simp only [Bool.and_eq_true, decide_eq_true_eq, Bool.not_eq_true',
    Bool.or_eq_false_iff, decide_eq_false_iff_not, not_lt, not_or, and_assoc]

/-- C8 counterexample: the resolver can return a rectangle of negative
width: on a page of width 100 a left-column caption gives the fallback
band (0, 50), and the 30-unit margins produce x0 = 30 > 20 = x1. -/
theorem region_nonnegative_claim_refuted :
    ¬ (∀ (page : Page) (cap : Rect),
        0 ≤ (get_smart_clip_rect page cap).width ∧
          0 ≤ (get_smart_clip_rect page cap).height) := by
  intro h
  exact absurd (h pageC capC).1 (by decide)

/-- C8 amended: although `get_smart_clip_rect` itself can produce
degenerate rectangles, the extraction loop skips every clip rectangle with
width or height below 50, so each extracted figure rectangle has both
dimensions at least 50 and the number of extracted figures is at most the
number of caption blocks. -/
theorem extracted_figures_bounds (page : Page) :
    (∀ r ∈ extractPageRects page, 50 ≤ r.width ∧ 50 ≤ r.height) ∧
      (extractPageRects page).length ≤
        (page.blocks.filter (fun b => is_caption b.text)).length := by
  constructor
  · intro r hr
    unfold extractPageRects at hr
    rw [List.mem_filterMap] at hr
    obtain ⟨b, hb, he⟩ := hr
    split_ifs at he with hcond
    rw [Option.some.injEq] at he
    push_neg at hcond
    rw [← he]
    exact hcond
  · unfold extractPageRects
    calc ((((sortBlocks page.blocks).filter (fun b => is_caption b.text)).filterMap
          (fun b =>
            if (get_smart_clip_rect page b.rect).width < 50 ∨
                (get_smart_clip_rect page b.rect).height < 50 then none
            else some (get_smart_clip_rect page b.rect)))).length
        ≤ ((sortBlocks page.blocks).filter (fun b => is_caption b.text)).length :=
          List.length_filterMap_le _ _
      _ = (page.blocks.filter (fun b => is_caption b.text)).length :=
          (((sortBlocks_perm page.blocks).filter _)).length_eq

/-- C8 amended, witness: the one figure extracted from `pageD` has both
dimensions at least 50. -/
theorem extracted_figures_bounds_witness :
    (50 : ℚ) ≤ (⟨25, 295, 285, 500⟩ : Rect).width ∧
      (50 : ℚ) ≤ (⟨25, 295, 285, 500⟩ : Rect).height :=
  (extracted_figures_bounds pageD).1 ⟨25, 295, 285, 500⟩ (by decide)

/- ### Caption detector lemmas -/

theorem tok_nil_left (l : List Char) : tokThenDigits [] l = wsDigit l := rfl

theorem tok_nil (t : Char) (ts : List Char) : tokThenDigits (t :: ts) [] = false := rfl

theorem tok_cons (t : Char) (ts : List Char) (c : Char) (l : List Char) :
    tokThenDigits (t :: ts) (c :: l) = (ciEq c t && tokThenDigits ts l) := by
  by_cases h : ciEq c t = true
  · have hd : dropTokCI (t :: ts) (c :: l) = dropTokCI ts l := by
      simp only [dropTokCI, if_pos h]
    simp only [tokThenDigits, hd, h, Bool.true_and]
  · have hd : dropTokCI (t :: ts) (c :: l) = none := by
      simp only [dropTokCI, if_neg h]
    rw [Bool.not_eq_true] at h
    simp only [tokThenDigits, hd, h, Bool.false_and]

theorem dotTail_eq (l : List Char) :
    dotTail l = (wsDigit l || tokThenDigits ['.'] l) := by
  cases l with
  | nil => rfl
  | cons c r =>
    rw [tok_cons]
    rfl

theorem ureTail_eq (l : List Char) :
    ureTail l =
      (wsDigit l || tokThenDigits ['.'] l ||
        (tokThenDigits ['u', 'r', 'e'] l || tokThenDigits ['u', 'r', 'e', '.'] l)) := by
  cases l with
  | nil => rfl
  | cons u l1 =>
    cases l1 with
    | nil =>
      simp [ureTail, dotTail_eq, tok_cons, tok_nil]
    | cons r l2 =>
      cases l2 with
      | nil =>
        simp [ureTail, dotTail_eq, tok_cons, tok_nil]
      | cons e rest =>
        simp only [ureTail, dotTail_eq, tok_cons, tok_nil_left,
          Bool.and_or_distrib_left, Bool.and_assoc, Bool.or_assoc]

theorem capMatch_eq (l : List Char) :
    capMatch l =
      (tokThenDigits ['图'] l || amendedMarkers.any (fun t => tokThenDigits t l)) := by
  cases l with
  | nil => rfl
  | cons c rest =>
    cases rest with
    | nil =>
      simp [capMatch, amendedMarkers, tok_cons, tok_nil, tok_nil_left, wsDigit]
    | cons i rest1 =>
      cases rest1 with
      | nil =>
        simp [capMatch, amendedMarkers, tok_cons, tok_nil, tok_nil_left]
      | cons g rest2 =>
        simp only [capMatch, amendedMarkers, List.any_cons, List.any_nil,
          tok_cons, tok_nil_left, ureTail_eq, Bool.and_or_distrib_left,
          Bool.and_assoc, Bool.or_assoc, Bool.or_false]

/-- C7 counterexample: the claimed marker list omits "Figure." (the regex
allows the optional dot after "Figure" too), so on the input "Figure.1"
the detector answers true while the claimed predicate answers false. -/
theorem caption_detector_claim_refuted :
    ¬ (∀ s : String, is_caption s = specIsCaption s) := by
  intro h
  exact absurd (h "Figure.1") (by decide)

/-- C7 amended: for every string, the detector returns true exactly when
the trimmed text starts with the token 图 or a case-insensitive Fig /
Fig. / Figure / Figure., followed by optional whitespace and at least one
digit; in particular "Figure 2: results" is accepted and "see figure
above" is rejected. -/
theorem caption_detector_characterization :
    (∀ s : String, is_caption s = specIsCaptionAmended s) ∧
      is_caption "Figure 2: results" = true ∧ is_caption "see figure above" = false :=
  ⟨fun s => capMatch_eq (pyStrip s.data), by decide, by decide⟩
